import Mathlib

/-!
Verification of the Leetcoder local index + generator pipeline.

Shallow embedding of the Python sources:
  * `src/problem_index.py`  (JSON-file problem index, the store used by the CLI)
  * `src/database.py`       (SQLite store variant; `mark_as_added`, `is_added`)
  * `src/solution_generator.py` (filename/template generator)

Strings are modelled as `List Char`.  Python dicts that preserve insertion
order are modelled as association lists with insert-or-replace-in-place
update.  Character classes of Python's `re` module (`\s`, `\w`, `\d`) and
`str.lower` are modelled over ASCII.
-/

namespace Leetcoder

/-- Python strings, modelled as lists of characters. -/
abbrev Str := List Char

/-- ASCII model of Python `str.lower` applied to one character. -/
def lowerChar (c : Char) : Char :=
  if 'A' ≤ c ∧ c ≤ 'Z' then Char.ofNat (c.toNat + 32) else c

/-- Python `s.lower()`. -/
def lowerStr (s : Str) : Str := s.map lowerChar

/-- Python's substring test `needle in haystack` on strings. -/
def strInStr (needle : Str) : Str → Bool
  | [] => needle.isEmpty
  | c :: t => needle.isPrefixOf (c :: t) || strInStr needle t

/-- Python dict lookup `d.get(key)` on an insertion-ordered association list. -/
def lookupKey {α : Type} : List (Str × α) → Str → Option α
  | [], _ => none
  | (k, v) :: t, key => if k = key then some v else lookupKey t key

/-- Python dict membership `key in d`. -/
def containsKey {α : Type} (l : List (Str × α)) (key : Str) : Bool :=
  l.any fun e => e.1 = key

/-- Python dict assignment `d[key] = v`: replaces in place if the key is
present (dicts keep the original position), else appends. -/
def insertKey {α : Type} : List (Str × α) → Str → α → List (Str × α)
  | [], key, v => [(key, v)]
  | (k, w) :: t, key, v =>
    if k = key then (key, v) :: t else (k, w) :: insertKey t key v

/-- Decimal digit `d` as a character (valid for `d < 10`). -/
def digitChar (d : Nat) : Char := Char.ofNat (48 + d)

/-- Numeric value of a decimal digit character. -/
def digitVal (c : Char) : Nat := c.toNat - 48

/-- Fuel-driven decimal printer (fuel makes it kernel-computable). -/
def natStrGo : Nat → Nat → Str
  | 0, _ => []
  | f + 1, n =>
    if n < 10 then [digitChar n]
    else natStrGo f (n / 10) ++ [digitChar (n % 10)]

/-- Python `str(n)` for a natural number. -/
def natStr (n : Nat) : Str := natStrGo (n + 1) n

/-- Parse a string of decimal digits, most significant first
(`int`-style fold; used only by the spec-side filename decoder). -/
def strToNat (s : Str) : Nat := s.foldl (fun a c => 10 * a + digitVal c) 0

theorem natStrGo_eq_digits (f n : Nat) (hf : n < f) (hn : 0 < n) :
    natStrGo f n = (Nat.digits 10 n).reverse.map digitChar := by
  induction f generalizing n with
  | zero => omega
  | succ f ih =>
    rw [natStrGo]
    rcases Nat.lt_or_ge n 10 with h10 | h10
    · rw [if_pos h10]
      rw [Nat.digits_def' (by omega : 1 < 10) hn]
      have : n / 10 = 0 := Nat.div_eq_of_lt h10
      rw [this, Nat.mod_eq_of_lt h10]
      simp
    · rw [if_neg (by omega)]
      have hd : 0 < n / 10 := Nat.div_pos h10 (by omega)
      have hlt : n / 10 < f := by
        have := Nat.div_lt_self hn (by omega : 1 < 10)
        omega
      rw [ih (n / 10) hlt hd]
      rw [Nat.digits_def' (by omega : 1 < 10) hn]
      simp

theorem digitChar_toNat {d : Nat} (hd : d < 10) : (digitChar d).toNat = 48 + d := by
  interval_cases d <;> decide

theorem digitVal_digitChar {d : Nat} (hd : d < 10) : digitVal (digitChar d) = d := by
  rw [digitVal, digitChar_toNat hd]
  omega

theorem digitChar_isDigit {d : Nat} (hd : d < 10) : (digitChar d).isDigit = true := by
  interval_cases d <;> decide

theorem mem_natStr_isDigit {n : Nat} {c : Char} (hc : c ∈ natStr n) :
    c.isDigit = true := by
  rcases Nat.eq_zero_or_pos n with h0 | hp
  · subst h0
    have : c = digitChar 0 := by
      simpa [natStr, natStrGo] using hc
    subst this
    decide
  · rw [natStr, natStrGo_eq_digits (n + 1) n (Nat.lt_succ_self n) hp] at hc
    rcases List.mem_map.1 hc with ⟨d, hd, hdc⟩
    have : d < 10 := Nat.digits_lt_base (by omega) (List.mem_reverse.1 hd)
    subst hdc
    exact digitChar_isDigit this

theorem foldl_digits_reverse (L : List Nat) (hL : ∀ d ∈ L, d < 10) (acc : Nat) :
    List.foldl (fun a c => 10 * a + digitVal c) acc (L.reverse.map digitChar)
      = acc * 10 ^ L.length + Nat.ofDigits 10 L := by
  induction L generalizing acc with
  | nil => simp
  | cons d T ih =>
    have hd : d < 10 := hL d (List.mem_cons_self d T)
    have hT : ∀ x ∈ T, x < 10 := fun x hx => hL x (List.mem_cons_of_mem _ hx)
    simp only [List.reverse_cons, List.map_append, List.map_cons, List.map_nil,
      List.foldl_append, List.foldl_cons, List.foldl_nil]
    rw [ih hT acc, digitVal_digitChar hd, Nat.ofDigits_cons]
    simp only [List.length_cons]
    ring

theorem strToNat_natStr {n : Nat} (hn : 0 < n) : strToNat (natStr n) = n := by
  rw [natStr, strToNat, natStrGo_eq_digits (n + 1) n (Nat.lt_succ_self n) hn]
  rw [foldl_digits_reverse _ (fun d hd => Nat.digits_lt_base (by omega) hd) 0]
  simp [Nat.ofDigits_digits]

/-- A problem dictionary as produced by the API client
(`LeetCodeAPI._format_problem_data` in `src/leetcode_api.py`). -/
structure ProblemRecord where
  id : Nat
  title : Str
  slug : Str
  difficulty : Str
  content : Str
  tags : List Str
  hints : List Str
  code_snippet : Str
  url : Str
deriving DecidableEq

/-- An entry of the JSON problem index: the dictionary literal stored by
`ProblemIndex.add_problem` (`src/problem_index.py`, lines 48-56). -/
structure IndexEntry where
  id : Nat
  title : Str
  slug : Str
  difficulty : Str
  tags : List Str
  filename : Str
  url : Str
deriving DecidableEq

/-- State of `ProblemIndex`: the JSON object `self.problems`, a mapping from
`str(id)` keys to stored entries, in insertion order. -/
structure ProblemIndexState where
  problems : List (Str × IndexEntry)
deriving DecidableEq

/-- Ascending order on stored entries by `id`
(the `key=lambda x: x["id"]` of `sorted`). -/
def byIdLe (a b : IndexEntry) : Prop := a.id ≤ b.id

instance : DecidableRel byIdLe := fun a b => Nat.decLe a.id b.id

/-- Descending order on `(tag, count)` pairs by count
(`Counter.most_common` sorts by count, largest first). -/
def byCountGe (a b : Str × Nat) : Prop := b.2 ≤ a.2

instance : DecidableRel byCountGe := fun a b => Nat.decLe b.2 a.2

namespace ProblemIndex

/-- The dictionary literal built inside `ProblemIndex.add_problem`: only
`id`, `title`, `slug`, `difficulty`, `tags`, `filename` and `url` of the
incoming problem data are stored. -/
def storedEntry (p : ProblemRecord) (filename : Str) : IndexEntry :=
  { id := p.id, title := p.title, slug := p.slug, difficulty := p.difficulty,
    tags := p.tags, filename := filename, url := p.url }

/-- `ProblemIndex.add_problem`: `self.problems[str(problem_data["id"])] = {...}`. -/
def add_problem (st : ProblemIndexState) (p : ProblemRecord) (filename : Str) :
    ProblemIndexState :=
  ⟨insertKey st.problems (natStr p.id) (storedEntry p filename)⟩

/-- `ProblemIndex.get_problem`: `self.problems.get(str(problem_id))`. -/
def get_problem (st : ProblemIndexState) (problem_id : Nat) : Option IndexEntry :=
  lookupKey st.problems (natStr problem_id)

/-- `ProblemIndex.problem_exists`: `str(problem_id) in self.problems`.
A pure read of the store: no filesystem access, no mutation. -/
def problem_exists (st : ProblemIndexState) (problem_id : Nat) : Bool :=
  containsKey st.problems (natStr problem_id)

/-- `self.problems.values()` in insertion order. -/
def values (st : ProblemIndexState) : List IndexEntry :=
  st.problems.map Prod.snd

/-- `ProblemIndex.search_by_title`: case-insensitive substring match against
`title` or `slug`, results sorted by `id` (Python `sorted` is stable, as is
`List.insertionSort`). -/
def search_by_title (st : ProblemIndexState) (keyword : Str) : List IndexEntry :=
  let kw := lowerStr keyword
  List.insertionSort byIdLe
    ((values st).filter fun p =>
      strInStr kw (lowerStr p.title) || strInStr kw (lowerStr p.slug))

/-- `ProblemIndex.search_by_tag`: `tag.lower() in [t.lower() for t in
problem["tags"]]` — exact (list-membership) match on lowercased tags,
results sorted by `id`. -/
def search_by_tag (st : ProblemIndexState) (tag : Str) : List IndexEntry :=
  let t := lowerStr tag
  List.insertionSort byIdLe
    ((values st).filter fun p => (p.tags.map lowerStr).contains t)

/-- `ProblemIndex.get_all_problems`: all entries sorted by `id`. -/
def get_all_problems (st : ProblemIndexState) : List IndexEntry :=
  List.insertionSort byIdLe (values st)

/-- The distinct elements of a list in order of first occurrence
(insertion order of `collections.Counter` keys); `seen` accumulates the
elements already emitted. -/
def firstOcc {α : Type} [DecidableEq α] (seen : List α) : List α → List α
  | [] => []
  | x :: t => if x ∈ seen then firstOcc seen t else x :: firstOcc (x :: seen) t

/-- `collections.Counter(l)` as an ordered list of `(element, count)` pairs. -/
def counter {α : Type} [DecidableEq α] (l : List α) : List (α × Nat) :=
  (firstOcc [] l).map fun x => (x, l.count x)

/-- `Counter(l).most_common(k)`: pairs sorted by count descending (stable on
ties, like CPython's `sorted(..., reverse=True)` equivalent), first `k` kept. -/
def most_common (l : List Str) (k : Nat) : List (Str × Nat) :=
  (List.insertionSort byCountGe (counter l)).take k

/-- Result shape of `ProblemIndex.get_statistics`. -/
structure Statistics where
  total : Nat
  by_difficulty : List (Str × Nat)
  by_tag : List (Str × Nat)
deriving DecidableEq

/-- `ProblemIndex.get_statistics` (`src/problem_index.py`, lines 132-156). -/
def get_statistics (st : ProblemIndexState) : Statistics :=
  if st.problems.isEmpty then
    { total := 0, by_difficulty := [], by_tag := [] }
  else
    { total := st.problems.length
      by_difficulty := counter ((values st).map fun p => p.difficulty)
      by_tag := most_common (((values st).map fun p => p.tags).flatten) 10 }

end ProblemIndex

/-- ASCII model of the whitespace class `\s` of Python's `re` module
(also used for `str.strip`). -/
def isSpaceChar (c : Char) : Bool :=
  c = ' ' || c = '\t' || c = '\n' || c = '\x0d' || c = '\x0b' || c = '\x0c'

/-- ASCII model of the word class `\w` of Python's `re` module. -/
def isWordChar (c : Char) : Bool :=
  c.isAlphanum || c = '_'

/-- Python `s.strip()`: whitespace removed from both ends. -/
def stripStr (s : Str) : Str :=
  ((s.dropWhile isSpaceChar).reverse.dropWhile isSpaceChar).reverse

/-- Python `s.rstrip(":")`: all trailing colons removed. -/
def rstripColon (s : Str) : Str :=
  (s.reverse.dropWhile fun c => c = ':').reverse

namespace SolutionGenerator

/-- `SolutionGenerator.generate_filename`:
`f"p{problem_id:04d}_{slug.replace('-', '_')}.py"`. -/
def generate_filename (problem_id : Nat) (slug : Str) : Str :=
  let formatted_id := List.replicate (4 - (natStr problem_id).length) '0' ++ natStr problem_id
  let clean_slug := slug.map fun c => if c = '-' then '_' else c
  'p' :: formatted_id ++ '_' :: clean_slug ++ ".py".toList

/-- Decoder stated by the spec ("decodes back to a 4-plus-digit zero-padded
id"): read the digit run that follows the leading marker character. -/
def decodeFilenameId (f : Str) : Nat :=
  strToNat ((f.drop 1).takeWhile Char.isDigit)

/-- Tail of the definition regex after the closing parenthesis:
`\s*(?:->\s*[^:]+)?:`.  Returns the consumed text.  Python's engine
backtracks productively at exactly one choice point here: `[^:]` also
matches whitespace, so when `->` is followed by whitespace and then
immediately a colon, the greedy inner `\s*` gives its final whitespace
character back to `[^:]+` and the group still matches (second inner
branch).  Every other choice point is between disjoint character classes
(`\s` vs `-`, `\s` vs `:`, non-colon run vs `:`), so the first alternative
tried is the only one that can succeed. -/
def matchTail (r : Str) : Option Str :=
  let w := r.takeWhile isSpaceChar
  match r.dropWhile isSpaceChar with
  | '-' :: '>' :: r2 =>
    let w2 := r2.takeWhile isSpaceChar
    let rest2 := r2.dropWhile isSpaceChar
    let body := rest2.takeWhile fun c => c ≠ ':'
    match body, rest2.dropWhile fun c => c ≠ ':' with
    | _ :: _, ':' :: _ => some (w ++ '-' :: '>' :: (w2 ++ body ++ [':']))
    | [], ':' :: _ =>
      if w2.isEmpty then none else some (w ++ '-' :: '>' :: (w2 ++ [':']))
    | _, _ => none
  | ':' :: _ => some (w ++ [':'])
  | _ => none

/-- One attempt of the regex `def\s+(\w+)\s*\([^)]*\)\s*(?:->\s*[^:]+)?:`
anchored at the start of `cs`; returns the group-1 name and the full match
(`group(0)`). -/
def matchDefAt (cs : Str) : Option (Str × Str) :=
  match cs with
  | 'd' :: 'e' :: 'f' :: r =>
    let w1 := r.takeWhile isSpaceChar
    let r1 := r.dropWhile isSpaceChar
    if w1.isEmpty then none
    else
      let name := r1.takeWhile isWordChar
      let r2 := r1.dropWhile isWordChar
      if name.isEmpty then none
      else
        let w2 := r2.takeWhile isSpaceChar
        match r2.dropWhile isSpaceChar with
        | '(' :: r4 =>
          let params := r4.takeWhile fun c => c ≠ ')'
          match r4.dropWhile fun c => c ≠ ')' with
          | ')' :: r6 =>
            match matchTail r6 with
            | some tail =>
              some (name,
                'd' :: 'e' :: 'f' :: (w1 ++ name ++ w2 ++ '(' :: (params ++ ')' :: tail)))
            | none => none
          | _ => none
        | _ => none
  | _ => none

/-- `re.search` for the definition pattern: try every start position from the
left, return the first (leftmost) match. -/
def findDef : Str → Option (Str × Str)
  | [] => matchDefAt []
  | c :: t =>
    match matchDefAt (c :: t) with
    | some r => some r
    | none => findDef t

/-- `SolutionGenerator.extract_function_signature`
(`src/solution_generator.py`, lines 84-104): the matched name and the match
with the trailing colon stripped, or the fixed fallback. -/
def extract_function_signature (cs : Str) : Str × Str :=
  match findDef cs with
  | some (n, full) => (n, rstripColon full)
  | none => ("solution".toList, "def solution(self)".toList)

/-- `SolutionGenerator._extract_imports`: every line whose stripped text
starts with `from ` or the import keyword, in order. -/
def extract_imports (code_snippet : Str) : List Str :=
  ((code_snippet.splitOn '\n').map stripStr).filter fun l =>
    "from ".toList.isPrefixOf l || "import ".toList.isPrefixOf l

end SolutionGenerator

/-- Parse events delivered by Python's `html.parser.HTMLParser` (external
standard-library collaborator, modelled here): start tags, end tags and
text data. -/
inductive HtmlEvent where
  | startTag (name : Str)
  | endTag (name : Str)
  | textData (s : Str)
deriving DecidableEq

/-- Model of the tag-token classifier of the external HTML tokenizer: the
text between the angle brackets becomes an end-tag event when it begins
with a slash, else a start-tag event; tag names are lowercased and
attributes dropped, as `HTMLParser` does. -/
def tagEvent (content : Str) : HtmlEvent :=
  match stripStr content with
  | '/' :: rest => .endTag (lowerStr (stripStr rest))
  | other => .startTag (lowerStr (other.takeWhile fun c => ¬ isSpaceChar c))

/-- Model of the external HTML tokenizer: a character scan that emits text
runs and bracketed tags.  `inTag` says whether we are inside `<...>`, `acc`
holds the current run reversed. -/
def tokenizeGo : Bool → Str → Str → List HtmlEvent
  | false, acc, [] => if acc.isEmpty then [] else [.textData acc.reverse]
  | false, acc, '<' :: t =>
    (if acc.isEmpty then [] else [.textData acc.reverse]) ++ tokenizeGo true [] t
  | false, acc, c :: t => tokenizeGo false (c :: acc) t
  | true, _, [] => []
  | true, acc, '>' :: t => tagEvent acc.reverse :: tokenizeGo false [] t
  | true, acc, c :: t => tokenizeGo true (c :: acc) t

/-- Model of `HTMLParser.feed`'s tokenization of the whole input. -/
def tokenize (s : Str) : List HtmlEvent := tokenizeGo false [] s

namespace SolutionGenerator

/-- State of `HTMLToTextParser` (`src/solution_generator.py`, lines 8-45):
the accumulated text chunks and the two (otherwise unused) mode flags. -/
structure HtmlToTextState where
  text : List Str
  in_pre : Bool
  in_strong : Bool
deriving DecidableEq

/-- `HTMLToTextParser.__init__`. -/
def initHtmlState : HtmlToTextState := ⟨[], false, false⟩

/-- `HTMLToTextParser.handle_starttag`. -/
def handle_starttag (st : HtmlToTextState) (tag : Str) : HtmlToTextState :=
  if tag = "pre".toList then { st with in_pre := true, text := st.text ++ [['\n']] }
  else if tag = "strong".toList then { st with in_strong := true }
  else if tag = "p".toList ∨ tag = "ul".toList then { st with text := st.text ++ [['\n']] }
  else if tag = "li".toList then { st with text := st.text ++ ["\n- ".toList] }
  else st

/-- `HTMLToTextParser.handle_endtag`. -/
def handle_endtag (st : HtmlToTextState) (tag : Str) : HtmlToTextState :=
  if tag = "pre".toList then { st with in_pre := false, text := st.text ++ [['\n']] }
  else if tag = "strong".toList then { st with in_strong := false }
  else if tag = "p".toList ∨ tag = "ul".toList then { st with text := st.text ++ [['\n']] }
  else st

/-- `HTMLToTextParser.handle_data`: keep the chunk only when its stripped
form is non-empty. -/
def handle_data (st : HtmlToTextState) (d : Str) : HtmlToTextState :=
  if (stripStr d).isEmpty then st else { st with text := st.text ++ [d] }

/-- Dispatch one parse event to the handler methods. -/
def handleEvent (st : HtmlToTextState) : HtmlEvent → HtmlToTextState
  | .startTag n => handle_starttag st n
  | .endTag n => handle_endtag st n
  | .textData d => handle_data st d

/-- `re.sub(r"\n{3,}", "\n\n", text)`: every run of three or more newlines
collapses to exactly two; `pending` counts newlines seen but not yet
emitted. -/
def collapseGo : Nat → Str → Str
  | pending, [] => List.replicate (min pending 2) '\n'
  | pending, '\n' :: t => collapseGo (pending + 1) t
  | pending, c :: t => List.replicate (min pending 2) '\n' ++ c :: collapseGo 0 t

/-- `HTMLToTextParser.get_text`: join the chunks, collapse newline runs,
strip the ends. -/
def get_text (st : HtmlToTextState) : Str :=
  stripStr (collapseGo 0 st.text.flatten)

/-- `SolutionGenerator.html_to_text` (`src/solution_generator.py`,
lines 78-82): feed the markup through the parser and read the text. -/
def html_to_text (html : Str) : Str :=
  get_text ((tokenize html).foldl handleEvent initHtmlState)

/-- `SolutionGenerator._generate_file_content`: the rendered stub-file text
(the f-string template of `src/solution_generator.py`, lines 168-212). -/
def generate_file_content (p : ProblemRecord) (description : Str)
    (func_info : Str × Str) (imports : List Str) : Str :=
  let imports_section :=
    if imports.isEmpty then "from typing import List".toList
    else List.intercalate ['\n'] imports
  "\"\"\"\nLeetCode ".toList ++ natStr p.id ++ ". ".toList ++ p.title
    ++ "\n\nDifficulty: ".toList ++ p.difficulty
    ++ "\nTags: ".toList ++ List.intercalate ", ".toList p.tags
    ++ "\n\n".toList ++ description
    ++ "\n\nLink: ".toList ++ p.url
    ++ "\n\"\"\"\n\n".toList ++ imports_section
    ++ "\n\n\nclass Solution:\n    \"\"\"Solution for ".toList ++ p.title
    ++ ".\"\"\"\n\n    ".toList ++ func_info.2
    ++ ":\n        \"\"\"\n        TODO: Add solution description\n\n        Args:\n            TODO: Describe parameters\n\n        Returns:\n            TODO: Describe return value\n\n        Time Complexity: O(?)\n        Space Complexity: O(?)\n        \"\"\"\n        pass\n\n\nif __name__ == \"__main__\":\n    # Test cases\n    sol = Solution()\n\n    # TODO: Add test cases\n    # Example:\n    # result = sol.".toList
    ++ func_info.1
    ++ "(...)\n    # assert result == expected\n    # print(\"✅ All test cases passed!\")\n\n    print(\"⚠️  Add your test cases above\")\n".toList

end SolutionGenerator

/-- The stub-file directory on disk: a mapping from path to file contents. -/
abbrev FileSystem := List (Str × Str)

/-- `Path.exists()` for a path in the modelled directory. -/
def fileExists (fs : FileSystem) (path : Str) : Bool := containsKey fs path

/-- `Path.write_text(content)` in the modelled directory. -/
def write_text (fs : FileSystem) (path content : Str) : FileSystem :=
  insertKey fs path content

/-- `self.solutions_dir / filename` (POSIX path join). -/
def pathJoin (dir filename : Str) : Str := dir ++ '/' :: filename

namespace SolutionGenerator

/-- `SolutionGenerator.generate_solution_file` (`src/solution_generator.py`,
lines 106-144): returns the path and the directory state after the call.
When the canonical file already exists the call only prints and returns the
path; otherwise it renders the template and writes the file. -/
def generate_solution_file (solutions_dir : Str) (fs : FileSystem)
    (p : ProblemRecord) : Str × FileSystem :=
  let filename := generate_filename p.id p.slug
  let filepath := pathJoin solutions_dir filename
  if fileExists fs filepath then (filepath, fs)
  else
    let description := html_to_text p.content
    let func_info := extract_function_signature p.code_snippet
    let imports := extract_imports p.code_snippet
    let content := generate_file_content p description func_info imports
    (filepath, write_text fs filepath content)

end SolutionGenerator

/-- A row of the `problems` table of `src/database.py` (`tags` and `hints`
are stored as JSON text; they are shown decoded, as `_row_to_dict` returns
them). -/
structure DbProblem where
  id : Nat
  title : Str
  slug : Str
  difficulty : Str
  content : Str
  code_snippet : Str
  tags : List Str
  hints : List Str
  url : Str
  synced_at : Str
deriving DecidableEq

/-- A row of the `added_problems` table (the MaterializationRecord). -/
structure AddedRow where
  id : Nat
  filename : Str
  added_at : Str
deriving DecidableEq

/-- State of the SQLite store of `src/database.py`. -/
structure DbState where
  problems : List DbProblem
  added : List AddedRow
deriving DecidableEq

namespace Database

/-- `Database.mark_as_added` (`src/database.py`, lines 205-224):
`INSERT OR REPLACE INTO added_problems (id, filename, added_at)`.  The
`FOREIGN KEY` clause of the schema is not enforced at runtime: sqlite3
leaves `PRAGMA foreign_keys` off by default and the code never issues that
pragma, so the statement succeeds for any id.  `now` stands for
`datetime.now().isoformat()`. -/
def mark_as_added (db : DbState) (problem_id : Nat) (filename : Str)
    (now : Str) : DbState :=
  { db with
      added := (db.added.filter fun r => r.id ≠ problem_id)
        ++ [{ id := problem_id, filename := filename, added_at := now }] }

/-- `Database.is_added` (`src/database.py`, lines 226-240):
`SELECT 1 FROM added_problems WHERE id = ?` — a pure read of the table;
the filesystem is not consulted and nothing is deleted. -/
def is_added (db : DbState) (problem_id : Nat) : Bool :=
  db.added.any fun r => r.id = problem_id

/-- `Database.get_added_filename`. -/
def get_added_filename (db : DbState) (problem_id : Nat) : Option Str :=
  (db.added.find? fun r => r.id = problem_id).map fun r => r.filename

/-- `Database.get_problem`: `SELECT * FROM problems WHERE id = ?`. -/
def get_problem (db : DbState) (problem_id : Nat) : Option DbProblem :=
  db.problems.find? fun r => r.id = problem_id

end Database

/-- JSON values that can appear in a stored index entry. -/
inductive JVal where
  | jnum (n : Nat)
  | jstr (s : Str)
  | jlist (l : List Str)
deriving DecidableEq

namespace ProblemIndex

/-- The JSON object serialized for one stored entry: the key/value pairs of
the dictionary literal of `add_problem`, in source order. -/
def entryPairs (e : IndexEntry) : List (Str × JVal) :=
  [("id".toList, .jnum e.id),
   ("title".toList, .jstr e.title),
   ("slug".toList, .jstr e.slug),
   ("difficulty".toList, .jstr e.difficulty),
   ("tags".toList, .jlist e.tags),
   ("filename".toList, .jstr e.filename),
   ("url".toList, .jstr e.url)]

/-- Modelled from the spec (reference for the refinement comparison in the
tag-search claim): "case-insensitive exact-or-substring match against any
element of `tags`, restricted to materialized records, ordered by `id`
ascending", with "the reference behavior is substring". -/
def search_by_tag_substring (st : ProblemIndexState) (tag : Str) : List IndexEntry :=
  let t := lowerStr tag
  List.insertionSort byIdLe
    ((values st).filter fun p => p.tags.any fun s => strInStr t (lowerStr s))

end ProblemIndex

/-- The spec's running example problem ("Two Sum"), used as concrete input
for counterexamples and witnesses. -/
def twoSum : ProblemRecord :=
  { id := 1
    title := "Two Sum".toList
    slug := "two-sum".toList
    difficulty := "Easy".toList
    content := "<p>Given an array of integers.</p>".toList
    tags := ["Array".toList, "Hash Table".toList]
    hints := []
    code_snippet := "from typing import List\nclass Solution:\n    def twoSum(self, nums: List[int], target: int) -> List[int]:\n".toList
    url := "https://leetcode.com/problems/two-sum/".toList }

/-- The index entry stored for the example problem. -/
def twoSumEntry : IndexEntry :=
  ProblemIndex.storedEntry twoSum "p0001_two_sum.py".toList

/-- A one-entry index state holding the example problem. -/
def sampleIndex : ProblemIndexState := ⟨[(natStr 1, twoSumEntry)]⟩

/-- A directory that already contains the example problem's stub file. -/
def sampleFs : FileSystem :=
  [(pathJoin "LeetCodeSolutions".toList
      (SolutionGenerator.generate_filename 1 "two-sum".toList),
    "# placeholder work\n".toList)]

theorem lookupKey_insertKey_self {α : Type} (l : List (Str × α)) (k : Str) (v : α) :
    lookupKey (insertKey l k v) k = some v := by
  induction l with
  | nil => simp [insertKey, lookupKey]
  | cons e t ih =>
    obtain ⟨k1, w⟩ := e
    by_cases h : k1 = k
    · simp [insertKey, h, lookupKey]
    · simp [insertKey, h, lookupKey, ih]

theorem containsKey_of_lookupKey {α : Type} {l : List (Str × α)} {k : Str} {v : α}
    (h : lookupKey l k = some v) : containsKey l k = true := by
  induction l with
  | nil => exact Option.noConfusion h
  | cons e t ih =>
    obtain ⟨k1, w⟩ := e
    by_cases hk : k1 = k
    · simp [containsKey, hk]
    · rw [lookupKey, if_neg hk] at h
      have ht := ih h
      rw [containsKey] at ht ⊢
      rw [List.any_cons, ht, Bool.or_true]

theorem lookupKey_mem_values {α : Type} {l : List (Str × α)} {k : Str} {v : α}
    (h : lookupKey l k = some v) : v ∈ l.map Prod.snd := by
  induction l with
  | nil => exact Option.noConfusion h
  | cons e t ih =>
    obtain ⟨k1, w⟩ := e
    by_cases hk : k1 = k
    · rw [lookupKey, if_pos hk] at h
      simp only [List.map_cons, List.mem_cons]
      exact Or.inl (Option.some_inj.1 h).symm
    · rw [lookupKey, if_neg hk] at h
      simp only [List.map_cons, List.mem_cons]
      exact Or.inr (ih h)

theorem mem_values_insertKey {α : Type} {l : List (Str × α)} {k : Str} {v w : α}
    (h : w ∈ (insertKey l k v).map Prod.snd) : w = v ∨ w ∈ l.map Prod.snd := by
  induction l with
  | nil => simpa [insertKey] using h
  | cons e t ih =>
    obtain ⟨k1, u⟩ := e
    by_cases hk : k1 = k
    · rw [insertKey, if_pos hk] at h
      simp only [List.map_cons, List.mem_cons] at h ⊢
      tauto
    · rw [insertKey, if_neg hk] at h
      simp only [List.map_cons, List.mem_cons] at h ⊢
      rcases h with h | h
      · tauto
      · rcases ih h with h2 | h2 <;> tauto

theorem find?_append_none {α : Type} {p : α → Bool} {l₁ l₂ : List α}
    (h : l₁.find? p = none) : (l₁ ++ l₂).find? p = l₂.find? p := by
  induction l₁ with
  | nil => rfl
  | cons x t ih =>
    rcases hpx : p x with hf | ht
    · rw [List.find?_cons_of_neg _ (by simp [hpx])] at h
      rw [List.cons_append, List.find?_cons_of_neg _ (by simp [hpx])]
      exact ih h
    · rw [List.find?_cons_of_pos _ hpx] at h
      exact Option.noConfusion h

/-- C9: immediately after `add_problem(record, filename)`, the integer-keyed
lookups agree with the string-keyed storage: `problem_exists(record.id)` is
true and `get_problem(record.id)` returns the stored entry. -/
theorem add_problem_roundtrip (st : ProblemIndexState) (p : ProblemRecord) (fn : Str) :
    ProblemIndex.problem_exists (ProblemIndex.add_problem st p fn) p.id = true ∧
    ProblemIndex.get_problem (ProblemIndex.add_problem st p fn) p.id
      = some (ProblemIndex.storedEntry p fn) := by
  constructor
  · exact containsKey_of_lookupKey (lookupKey_insertKey_self st.problems _ _)
  · exact lookupKey_insertKey_self st.problems _ _

/-- C2 counterexample: in a state whose only materialization record points
at a file that is absent from the (empty) directory, the existence check
still returns true — the claim predicts false plus a purge, but
`problem_exists` never consults the filesystem and never deletes. -/
theorem problem_exists_stale_record_cex :
    ProblemIndex.get_problem sampleIndex 1 = some twoSumEntry ∧
    fileExists ([] : FileSystem) twoSumEntry.filename = false ∧
    ProblemIndex.problem_exists sampleIndex 1 = true := by
  refine ⟨rfl, rfl, rfl⟩

/-- C2 amended: when a materialization record exists for an id, the
existence check returns true regardless of the filesystem state (even when
the backing stub file has been deleted out-of-band); being a pure read of
the store, it drops nothing. -/
theorem problem_exists_ignores_filesystem (st : ProblemIndexState) (fs : FileSystem)
    (id : Nat) (e : IndexEntry)
    (h1 : ProblemIndex.get_problem st id = some e)
    (h2 : fileExists fs e.filename = false) :
    ProblemIndex.problem_exists st id = true :=
  containsKey_of_lookupKey h1

/-- Witness for the amended C2 theorem at the concrete stale state. -/
theorem problem_exists_ignores_filesystem_witness :
    ProblemIndex.problem_exists sampleIndex 1 = true :=
  problem_exists_ignores_filesystem sampleIndex [] 1 twoSumEntry rfl rfl

/-- C8 counterexample: on an empty database, `mark_as_added 1` succeeds (no
`ReferenceError` is raised anywhere in the code) and creates a
materialization record although no problem row with id 1 exists. -/
theorem mark_as_added_dangling_cex :
    Database.is_added
      (Database.mark_as_added ⟨[], []⟩ 1 "p0001_two_sum.py".toList
        "2026-10-12T00:00:00".toList) 1 = true ∧
    Database.get_problem
      (Database.mark_as_added ⟨[], []⟩ 1 "p0001_two_sum.py".toList
        "2026-10-12T00:00:00".toList) 1 = none := by
  refine ⟨rfl, rfl⟩

/-- C8 amended: `mark_as_added` performs no referential check: for every
database state and every id — including ids with no ProblemRecord — it
succeeds, and afterwards the materialization record for that id exists and
carries the given filename, while the problems table is untouched. -/
theorem mark_as_added_unchecked (db : DbState) (pid : Nat) (fn now : Str) :
    Database.is_added (Database.mark_as_added db pid fn now) pid = true ∧
    Database.get_added_filename (Database.mark_as_added db pid fn now) pid = some fn ∧
    Database.get_problem (Database.mark_as_added db pid fn now) pid
      = Database.get_problem db pid := by
  refine ⟨?_, ?_, rfl⟩
  · simp [Database.is_added, Database.mark_as_added]
  · have hnone :
        (db.added.filter fun r => decide (r.id ≠ pid)).find?
          (fun r => decide (r.id = pid)) = none := by
      rw [List.find?_eq_none]
      intro x hx
      have := (List.mem_filter.1 hx).2
      simp at this ⊢
      exact this
    simp only [Database.get_added_filename, Database.mark_as_added]
    rw [find?_append_none hnone]
    rw [List.find?_cons_of_pos _ (by simp)]
    rfl

/-- C5: when the canonical stub file already exists in the solutions
directory, `generate_solution_file` writes nothing — the directory state is
returned unchanged — and the path of the pre-existing file is returned. -/
theorem generate_solution_file_existing (dir : Str) (fs : FileSystem) (p : ProblemRecord)
    (h : fileExists fs (pathJoin dir (SolutionGenerator.generate_filename p.id p.slug)) = true) :
    SolutionGenerator.generate_solution_file dir fs p
      = (pathJoin dir (SolutionGenerator.generate_filename p.id p.slug), fs) := by
  rw [SolutionGenerator.generate_solution_file]
  simp only [h, if_pos]

/-- Witness for C5 at a directory already holding `p0001_two_sum.py`. -/
theorem generate_solution_file_existing_witness :
    SolutionGenerator.generate_solution_file "LeetCodeSolutions".toList sampleFs twoSum
      = (pathJoin "LeetCodeSolutions".toList
          (SolutionGenerator.generate_filename twoSum.id twoSum.slug), sampleFs) :=
  generate_solution_file_existing "LeetCodeSolutions".toList sampleFs twoSum (by decide)

/-- C7 counterexample: for the empty markup string the conversion yields the
empty string — not a non-empty "no description available" sentinel. -/
theorem html_to_text_empty_cex :
    (SolutionGenerator.html_to_text []).isEmpty = true := by
  decide

/-- C7 amended: for the empty markup string, the markup-to-plain-text
conversion produces the empty string (no sentinel text is substituted). -/
theorem html_to_text_empty : SolutionGenerator.html_to_text [] = [] := by
  decide

instance : IsTotal IndexEntry byIdLe := ⟨fun a b => Nat.le_total a.id b.id⟩

instance : IsTrans IndexEntry byIdLe := ⟨fun _ _ _ h1 h2 => Nat.le_trans h1 h2⟩

instance : IsTotal (Str × Nat) byCountGe := ⟨fun a b => Nat.le_total b.2 a.2⟩

instance : IsTrans (Str × Nat) byCountGe := ⟨fun _ _ _ h1 h2 => Nat.le_trans h2 h1⟩

/-- C1 counterexample: on the one-record store whose entry is tagged
`Array`, the lowercased query `arr` is a substring of the lowercase form of
the tag `Array`, so the claimed substring semantics would return the
record; the code's tag search returns the empty list (its match is exact
list membership of the lowercased tag). -/
theorem search_by_tag_substring_cex :
    ProblemIndex.search_by_tag sampleIndex "arr".toList = [] ∧
    strInStr (lowerStr "arr".toList) (lowerStr "Array".toList) = true ∧
    "Array".toList ∈ twoSumEntry.tags ∧
    ProblemIndex.search_by_tag_substring sampleIndex "arr".toList = [twoSumEntry] := by
  refine ⟨by decide, by decide, by decide, by decide⟩

/-- C1 amended: the tag search returns exactly those stored (materialized)
records for which the lowercased query equals the lowercase form of at
least one element of the record's tags — exact case-insensitive match, not
substring — ordered by `id` ascending. -/
theorem search_by_tag_exact (st : ProblemIndexState) (tag : Str) :
    (ProblemIndex.search_by_tag st tag).Perm
      ((ProblemIndex.values st).filter fun p =>
        (p.tags.map lowerStr).contains (lowerStr tag)) ∧
    (∀ r, r ∈ ProblemIndex.search_by_tag st tag ↔
      r ∈ ProblemIndex.values st ∧ lowerStr tag ∈ r.tags.map lowerStr) ∧
    (ProblemIndex.search_by_tag st tag).Pairwise byIdLe := by
  refine ⟨List.perm_insertionSort _ _, ?_, List.sorted_insertionSort byIdLe _⟩
  intro r
  rw [ProblemIndex.search_by_tag, List.mem_insertionSort, List.mem_filter]
  exact and_congr_right fun _ => List.elem_iff

theorem mem_firstOcc {α : Type} [DecidableEq α] {seen l : List α} {x : α} :
    x ∈ ProblemIndex.firstOcc seen l ↔ x ∈ l ∧ x ∉ seen := by
  induction l generalizing seen with
  | nil => simp [ProblemIndex.firstOcc]
  | cons a t ih =>
    rw [ProblemIndex.firstOcc]
    by_cases ha : a ∈ seen
    · rw [if_pos ha, ih]
      simp only [List.mem_cons]
      constructor
      · rintro ⟨hx, hs⟩
        exact ⟨Or.inr hx, hs⟩
      · rintro ⟨hxa | hx, hs⟩
        · exact absurd (hxa.symm ▸ ha) hs
        · exact ⟨hx, hs⟩
    · rw [if_neg ha, List.mem_cons, ih]
      simp only [List.mem_cons]
      constructor
      · rintro (hxa | ⟨hx, hs⟩)
        · exact ⟨Or.inl hxa, hxa.symm ▸ ha⟩
        · exact ⟨Or.inr hx, fun hmem => hs (Or.inr hmem)⟩
      · rintro ⟨hxa | hx, hs⟩
        · exact Or.inl hxa
        · by_cases hxa : x = a
          · exact Or.inl hxa
          · exact Or.inr ⟨hx, fun hmem => hmem.elim hxa hs⟩

theorem nodup_firstOcc {α : Type} [DecidableEq α] (seen l : List α) :
    (ProblemIndex.firstOcc seen l).Nodup := by
  induction l generalizing seen with
  | nil => exact List.nodup_nil
  | cons a t ih =>
    rw [ProblemIndex.firstOcc]
    by_cases ha : a ∈ seen
    · rw [if_pos ha]
      exact ih seen
    · rw [if_neg ha]
      refine List.nodup_cons.mpr ⟨?_, ih (a :: seen)⟩
      intro hmem
      exact (mem_firstOcc.1 hmem).2 (List.mem_cons_self a seen)

theorem firstOcc_perm_dedup {α : Type} [DecidableEq α] (l : List α) :
    (ProblemIndex.firstOcc [] l).Perm l.dedup := by
  refine List.perm_of_nodup_nodup_toFinset_eq (nodup_firstOcc [] l) l.nodup_dedup ?_
  ext a
  simp [List.mem_toFinset, mem_firstOcc, List.mem_dedup]

theorem counter_snd_sum {α : Type} [DecidableEq α] (l : List α) :
    ((ProblemIndex.counter l).map Prod.snd).sum = l.length := by
  rw [ProblemIndex.counter, List.map_map]
  have h1 : ((ProblemIndex.firstOcc [] l).map (Prod.snd ∘ fun x => (x, l.count x)))
      = (ProblemIndex.firstOcc [] l).map fun x => l.count x := by
    simp [Function.comp_def]
  rw [h1]
  have h2 := ((firstOcc_perm_dedup l).map fun x => l.count x).sum_eq
  rw [h2, List.sum_map_count_dedup_eq_length]

/-- C6: statistics over the store: the total equals the number of stored
(materialized) records, the per-difficulty counts sum to the total, and
`by_tag` has at most 10 entries sorted by count descending. -/
theorem get_statistics_spec (st : ProblemIndexState) :
    (ProblemIndex.get_statistics st).total = st.problems.length ∧
    ((ProblemIndex.get_statistics st).by_difficulty.map Prod.snd).sum
      = (ProblemIndex.get_statistics st).total ∧
    (ProblemIndex.get_statistics st).by_tag.length ≤ 10 ∧
    (ProblemIndex.get_statistics st).by_tag.Pairwise byCountGe := by
  rw [ProblemIndex.get_statistics]
  by_cases h : st.problems.isEmpty
  · rw [if_pos h]
    rw [List.isEmpty_iff] at h
    exact ⟨by rw [h]; rfl, rfl, by decide, List.Pairwise.nil⟩
  · rw [if_neg h]
    refine ⟨rfl, ?_, ?_, ?_⟩
    · show ((ProblemIndex.counter ((ProblemIndex.values st).map fun p => p.difficulty)).map
          Prod.snd).sum = st.problems.length
      rw [counter_snd_sum, List.length_map, ProblemIndex.values, List.length_map]
    · exact List.length_take_le 10 _
    · exact List.Pairwise.sublist (List.take_sublist 10 _)
        (List.sorted_insertionSort byCountGe _)

/-- C10: the JSON index stores exactly the fields `id`, `title`, `slug`,
`difficulty`, `tags`, `filename`, `url` for every entry — never `content`,
`code_snippet`, `hints` or `synced_at` (the stored entry does not depend on
those fields of the incoming record) — and every record returned by
`get_problem`, `search_by_title`, `search_by_tag` or `get_all_problems` is
one of the stored entries. -/
theorem index_projection_invariant (p q : ProblemRecord) (fn : Str)
    (st : ProblemIndexState) (r : IndexEntry) (i : Nat) (kw : Str) :
    ((ProblemIndex.entryPairs (ProblemIndex.storedEntry p fn)).map Prod.fst
      = ["id".toList, "title".toList, "slug".toList, "difficulty".toList,
         "tags".toList, "filename".toList, "url".toList]) ∧
    ("content".toList ∉
        (ProblemIndex.entryPairs (ProblemIndex.storedEntry p fn)).map Prod.fst ∧
      "code_snippet".toList ∉
        (ProblemIndex.entryPairs (ProblemIndex.storedEntry p fn)).map Prod.fst ∧
      "hints".toList ∉
        (ProblemIndex.entryPairs (ProblemIndex.storedEntry p fn)).map Prod.fst ∧
      "synced_at".toList ∉
        (ProblemIndex.entryPairs (ProblemIndex.storedEntry p fn)).map Prod.fst) ∧
    (p.id = q.id → p.title = q.title → p.slug = q.slug → p.difficulty = q.difficulty →
      p.tags = q.tags → p.url = q.url →
      ProblemIndex.storedEntry p fn = ProblemIndex.storedEntry q fn) ∧
    (r ∈ ProblemIndex.values (ProblemIndex.add_problem st p fn) →
      r = ProblemIndex.storedEntry p fn ∨ r ∈ ProblemIndex.values st) ∧
    (ProblemIndex.get_problem st i = some r → r ∈ ProblemIndex.values st) ∧
    (r ∈ ProblemIndex.search_by_title st kw → r ∈ ProblemIndex.values st) ∧
    (r ∈ ProblemIndex.search_by_tag st kw → r ∈ ProblemIndex.values st) ∧
    (r ∈ ProblemIndex.get_all_problems st → r ∈ ProblemIndex.values st) := by
  have hkeys : (ProblemIndex.entryPairs (ProblemIndex.storedEntry p fn)).map Prod.fst
      = ["id".toList, "title".toList, "slug".toList, "difficulty".toList,
         "tags".toList, "filename".toList, "url".toList] := rfl
  refine ⟨hkeys,
    ⟨by rw [hkeys]; decide, by rw [hkeys]; decide, by rw [hkeys]; decide,
      by rw [hkeys]; decide⟩, ?_, ?_, ?_, ?_, ?_, ?_⟩
  · intro h1 h2 h3 h4 h5 h6
    rw [ProblemIndex.storedEntry, ProblemIndex.storedEntry, h1, h2, h3, h4, h5, h6]
  · exact fun h => mem_values_insertKey h
  · exact fun h => lookupKey_mem_values h
  · intro h
    rw [ProblemIndex.search_by_title, List.mem_insertionSort] at h
    exact (List.mem_filter.1 h).1
  · intro h
    rw [ProblemIndex.search_by_tag, List.mem_insertionSort] at h
    exact (List.mem_filter.1 h).1
  · intro h
    rw [ProblemIndex.get_all_problems, List.mem_insertionSort] at h
    exact h

/-- Witness for C10: the example entry returned by a tag search is indeed a
stored entry of the sample index. -/
theorem index_projection_invariant_witness :
    twoSumEntry ∈ ProblemIndex.values sampleIndex := by
  have h := index_projection_invariant twoSum twoSum "p0001_two_sum.py".toList
    sampleIndex twoSumEntry 1 "Array".toList
  exact h.2.2.2.2.2.2.1 (by decide)

theorem takeWhile_append_stop {α : Type} (p : α → Bool) (A : List α) (b : α) (B : List α)
    (hA : ∀ a ∈ A, p a = true) (hb : p b = false) :
    (A ++ b :: B).takeWhile p = A := by
  induction A with
  | nil =>
    rw [List.nil_append]
    exact List.takeWhile_cons_of_neg (by rw [hb]; exact Bool.false_ne_true)
  | cons a A ih =>
    rw [List.cons_append,
      List.takeWhile_cons_of_pos (hA a (List.mem_cons_self a A)),
      ih fun x hx => hA x (List.mem_cons_of_mem _ hx)]

theorem pad_all_digits {k n : Nat} {c : Char}
    (hc : c ∈ List.replicate k '0' ++ natStr n) : c.isDigit = true := by
  rcases List.mem_append.1 hc with h | h
  · rw [List.eq_of_mem_replicate h]
    decide
  · exact mem_natStr_isDigit h

theorem foldl_zeros (k : Nat) :
    List.foldl (fun a c => 10 * a + digitVal c) 0 (List.replicate k '0') = 0 := by
  induction k with
  | zero => rfl
  | succ k ih => simpa [List.replicate_succ, digitVal] using ih

/-- C3: for every positive id and every slug, the generated filename
contains no hyphen, its digit run (after the leading marker) is the id
zero-padded to at least 4 digits — never truncated: its length is exactly
`max 4 (number of decimal digits)` — and the spec-side decoder recovers the
original id from the name. -/
theorem generate_filename_spec (problem_id : Nat) (slug : Str)
    (hpos : 0 < problem_id) :
    '-' ∉ SolutionGenerator.generate_filename problem_id slug ∧
    SolutionGenerator.decodeFilenameId
      (SolutionGenerator.generate_filename problem_id slug) = problem_id ∧
    4 ≤ (((SolutionGenerator.generate_filename problem_id slug).drop 1).takeWhile
          Char.isDigit).length ∧
    (((SolutionGenerator.generate_filename problem_id slug).drop 1).takeWhile
          Char.isDigit).length = max 4 (natStr problem_id).length := by
  have hshape : SolutionGenerator.generate_filename problem_id slug
      = 'p' :: ((List.replicate (4 - (natStr problem_id).length) '0' ++ natStr problem_id)
          ++ ('_' :: ((slug.map fun c => if c = '-' then '_' else c) ++ ".py".toList))) := by
    rw [SolutionGenerator.generate_filename]
    simp [List.append_assoc]
  have htake : (((SolutionGenerator.generate_filename problem_id slug).drop 1).takeWhile
        Char.isDigit)
      = List.replicate (4 - (natStr problem_id).length) '0' ++ natStr problem_id := by
    rw [hshape, List.drop_one, List.tail_cons]
    exact takeWhile_append_stop _ _ _ _ (fun a ha => pad_all_digits ha) (by decide)
  refine ⟨?_, ?_, ?_, ?_⟩
  · rw [hshape]
    intro hmem
    simp only [List.mem_cons, List.mem_append, List.mem_map] at hmem
    rcases hmem with h | (h | h) | h | ⟨c, _, hc⟩ | h
    · exact absurd h (by decide)
    · exact absurd (List.eq_of_mem_replicate h) (by decide)
    · exact absurd (mem_natStr_isDigit h) (by decide)
    · exact absurd h (by decide)
    · by_cases hcm : c = '-'
      · rw [if_pos hcm] at hc
        exact absurd hc (by decide)
      · rw [if_neg hcm] at hc
        exact hcm hc
    · exact absurd h (by decide)
  · rw [SolutionGenerator.decodeFilenameId, htake, strToNat, List.foldl_append, foldl_zeros]
    exact strToNat_natStr hpos
  · rw [htake, List.length_append, List.length_replicate]
    omega
  · rw [htake, List.length_append, List.length_replicate]
    omega

/-- Witness for C3 at the spec's example input `(1, "two-sum")`. -/
theorem generate_filename_spec_witness :
    '-' ∉ SolutionGenerator.generate_filename 1 "two-sum".toList ∧
    SolutionGenerator.decodeFilenameId
      (SolutionGenerator.generate_filename 1 "two-sum".toList) = 1 := by
  have h := generate_filename_spec 1 "two-sum".toList (by decide)
  exact ⟨h.1, h.2.1⟩

theorem rstripColon_append_colon (g : Str) (hg : ∀ c, g.getLast? = some c → c ≠ ':') :
    rstripColon (g ++ [':']) = g := by
  rw [rstripColon, List.reverse_append]
  rw [show ([':'] : Str).reverse = [':'] from rfl, List.singleton_append]
  rw [List.dropWhile_cons_of_pos (by decide)]
  rcases hrev : g.reverse with _ | ⟨c, t⟩
  · rw [List.reverse_eq_nil_iff.1 hrev]
    rfl
  · have hc : g.getLast? = some c := by
      rw [← List.head?_reverse, hrev]
      rfl
    rw [List.dropWhile_cons_of_neg (by simp [hg c hc])]
    rw [← hrev, List.reverse_reverse]

theorem matchTail_shape {r t : Str} (h : SolutionGenerator.matchTail r = some t) :
    ∃ g, t = g ++ [':'] ∧ ∀ c, g.getLast? = some c → c ≠ ':' := by
  unfold SolutionGenerator.matchTail at h
  split at h
  · -- dropWhile = '-' :: '>' :: r2 branch: inner match on (body, rest)
    dsimp only at h
    split at h
    · -- body nonempty, rest starts with ':'
      rename_i r2 heqdw body rest c0 body0 rest0 heqb heqr
      rw [Option.some_inj] at h
      refine ⟨r.takeWhile isSpaceChar ++ '-' :: '>' ::
        (r2.takeWhile isSpaceChar ++ List.takeWhile (fun c => decide ¬c = ':')
          (r2.dropWhile isSpaceChar)), ?_, ?_⟩
      · rw [← h]
        simp [List.append_assoc]
      · intro c hc hcolon
        subst hcolon
        have hmem := List.mem_of_mem_getLast? hc
        simp only [List.mem_append, List.mem_cons] at hmem
        rcases hmem with hm | hm | hm | hm | hm
        · exact absurd (List.mem_takeWhile_imp hm) (by decide)
        · exact absurd hm (by decide)
        · exact absurd hm (by decide)
        · exact absurd (List.mem_takeWhile_imp hm) (by decide)
        · have := List.mem_takeWhile_imp hm
          simp at this
    · -- body empty, rest starts with ':': the backtracked `\s*`/`[^:]+` case
      rename_i x0 r2 houter b1 b2 rest heqb heqr
      split at h
      · exact Option.noConfusion h
      · rw [Option.some_inj] at h
        refine ⟨r.takeWhile isSpaceChar ++ '-' :: '>' :: r2.takeWhile isSpaceChar,
          ?_, ?_⟩
        · rw [← h]
          simp [List.append_assoc]
        · intro c hc hcolon
          subst hcolon
          have hmem := List.mem_of_mem_getLast? hc
          simp only [List.mem_append, List.mem_cons] at hmem
          rcases hmem with hm | hm | hm | hm
          · exact absurd (List.mem_takeWhile_imp hm) (by decide)
          · exact absurd hm (by decide)
          · exact absurd hm (by decide)
          · exact absurd (List.mem_takeWhile_imp hm) (by decide)
    · exact Option.noConfusion h
  · -- dropWhile = ':' :: rest branch
    rw [Option.some_inj] at h
    refine ⟨r.takeWhile isSpaceChar, ?_, ?_⟩
    · rw [← h]
    · intro c hc hcolon
      subst hcolon
      have hmem := List.mem_of_mem_getLast? hc
      exact absurd (List.mem_takeWhile_imp hmem) (by decide)
  · exact Option.noConfusion h

theorem matchDefAt_shape {cs n f : Str}
    (h : SolutionGenerator.matchDefAt cs = some (n, f)) :
    ∃ g, f = g ++ [':'] ∧ ∀ c, g.getLast? = some c → c ≠ ':' := by
  unfold SolutionGenerator.matchDefAt at h
  split at h
  case h_2 => exact Option.noConfusion h
  rename_i r
  dsimp only at h
  split at h
  · exact Option.noConfusion h
  split at h
  · exact Option.noConfusion h
  split at h
  case h_2 => exact Option.noConfusion h
  rename_i r4 heqpar
  split at h
  case h_2 => exact Option.noConfusion h
  rename_i r6 heqr6
  split at h
  case h_2 => exact Option.noConfusion h
  rename_i tail heqtail
  rw [Option.some_inj, Prod.mk.injEq] at h
  obtain ⟨hn, hf⟩ := h
  obtain ⟨gt, hgt, hlast⟩ := matchTail_shape heqtail
  refine ⟨'d' :: 'e' :: 'f' ::
    (List.takeWhile isSpaceChar r ++ (List.dropWhile isSpaceChar r).takeWhile isWordChar
      ++ List.takeWhile isSpaceChar ((List.dropWhile isSpaceChar r).dropWhile isWordChar)
      ++ '(' :: (List.takeWhile (fun c => decide ¬c = ')') r4 ++ ')' :: gt)), ?_, ?_⟩
  · rw [← hf, hgt]
    simp [List.append_assoc]
  · intro c hc hcolon
    subst hcolon
    have hsplit : 'd' :: 'e' :: 'f' ::
        (List.takeWhile isSpaceChar r ++ (List.dropWhile isSpaceChar r).takeWhile isWordChar
          ++ List.takeWhile isSpaceChar ((List.dropWhile isSpaceChar r).dropWhile isWordChar)
          ++ '(' :: (List.takeWhile (fun c => decide ¬c = ')') r4 ++ ')' :: gt))
        = ('d' :: 'e' :: 'f' ::
          (List.takeWhile isSpaceChar r ++ (List.dropWhile isSpaceChar r).takeWhile isWordChar
            ++ List.takeWhile isSpaceChar ((List.dropWhile isSpaceChar r).dropWhile isWordChar)
            ++ '(' :: List.takeWhile (fun c => decide ¬c = ')') r4)) ++ (')' :: gt) := by
      simp [List.append_assoc]
    rw [hsplit, List.getLast?_append] at hc
    rcases hgtl : gt.getLast? with _ | c'
    · rw [show (')' :: gt).getLast? = (gt.getLast?).or (some ')') by
        rw [← List.singleton_append, List.getLast?_append]; rfl, hgtl] at hc
      simp at hc
    · rw [show (')' :: gt).getLast? = (gt.getLast?).or (some ')') by
        rw [← List.singleton_append, List.getLast?_append]; rfl, hgtl] at hc
      simp at hc
      exact hlast c' hgtl hc

theorem findDef_eq_none {cs : Str}
    (h : ∀ i, SolutionGenerator.matchDefAt (cs.drop i) = none) :
    SolutionGenerator.findDef cs = none := by
  induction cs with
  | nil => rfl
  | cons c t ih =>
    have h0 := h 0
    rw [List.drop_zero] at h0
    unfold SolutionGenerator.findDef
    rw [h0]
    exact ih fun i => by
      have := h (i + 1)
      rwa [List.drop_succ_cons] at this

theorem findDef_eq_some {cs : Str} {i : Nat} {n f : Str}
    (hm : SolutionGenerator.matchDefAt (cs.drop i) = some (n, f))
    (hmin : ∀ j, j < i → SolutionGenerator.matchDefAt (cs.drop j) = none) :
    SolutionGenerator.findDef cs = some (n, f) := by
  induction cs generalizing i with
  | nil =>
    rw [List.drop_nil] at hm
    exact Option.noConfusion hm
  | cons c t ih =>
    cases i with
    | zero =>
      rw [List.drop_zero] at hm
      unfold SolutionGenerator.findDef
      rw [hm]
    | succ i2 =>
      have h0 := hmin 0 (Nat.succ_pos i2)
      rw [List.drop_zero] at h0
      unfold SolutionGenerator.findDef
      rw [h0]
      refine ih (i := i2) ?_ ?_
      · rwa [List.drop_succ_cons] at hm
      · intro j hj
        have := hmin (j + 1) (Nat.succ_lt_succ hj)
        rwa [List.drop_succ_cons] at this

/-- C4: signature extraction is total on strings and matches the regex
search semantics: when no start position of the input matches the
definition pattern, the fixed fallback pair
`("solution", "def solution(self)")` is returned; when some position
matches, the leftmost match's group-1 name is returned together with the
full match with its trailing colon stripped (every raw match ends in
exactly one colon, so stripping removes exactly that block-opening token). -/
theorem extract_function_signature_spec (cs : Str) :
    ((∀ i, i ≤ cs.length → SolutionGenerator.matchDefAt (cs.drop i) = none) →
      SolutionGenerator.extract_function_signature cs
        = ("solution".toList, "def solution(self)".toList)) ∧
    (∀ i n f, SolutionGenerator.matchDefAt (cs.drop i) = some (n, f) →
      (∀ j, j < i → SolutionGenerator.matchDefAt (cs.drop j) = none) →
      SolutionGenerator.extract_function_signature cs = (n, rstripColon f) ∧
      rstripColon f ++ [':'] = f) := by
  constructor
  · intro h
    have hall : ∀ i, SolutionGenerator.matchDefAt (cs.drop i) = none := by
      intro i
      rcases le_or_lt i cs.length with hle | hlt
      · exact h i hle
      · rw [List.drop_eq_nil_of_le (le_of_lt hlt)]
        rfl
    unfold SolutionGenerator.extract_function_signature
    rw [findDef_eq_none hall]
  · intro i n f hm hmin
    constructor
    · unfold SolutionGenerator.extract_function_signature
      rw [findDef_eq_some hm hmin]
    · obtain ⟨g, rfl, hg⟩ := matchDefAt_shape hm
      rw [rstripColon_append_colon g hg]

/-- Witness for C4: an unparseable snippet falls back to the fixed pair; the
spec's example snippet (indented, so the match starts at position 4) yields
name `twoSum` and its header without the colon; and the backtracking case
`"def f() -> :"` — where `[^:]+` consumes whitespace given back by the
inner `\s*` — matches with name `f` and header `"def f() -> "`. -/
theorem extract_function_signature_spec_witness :
    SolutionGenerator.extract_function_signature "x = 1".toList
      = ("solution".toList, "def solution(self)".toList) ∧
    SolutionGenerator.extract_function_signature
        "    def twoSum(self, nums: List[int], target: int) -> List[int]:".toList
      = ("twoSum".toList,
         "def twoSum(self, nums: List[int], target: int) -> List[int]".toList) ∧
    SolutionGenerator.extract_function_signature "def f() -> :".toList
      = ("f".toList, "def f() -> ".toList) := by
  refine ⟨?_, ?_, ?_⟩
  · exact (extract_function_signature_spec "x = 1".toList).1 (by decide)
  · have h := (extract_function_signature_spec
        "    def twoSum(self, nums: List[int], target: int) -> List[int]:".toList).2
      4 "twoSum".toList
      "def twoSum(self, nums: List[int], target: int) -> List[int]:".toList
      (by decide) (by decide)
    exact h.1.trans (by decide)
  · have h := (extract_function_signature_spec "def f() -> :".toList).2
      0 "f".toList "def f() -> :".toList (by decide) (by decide)
    exact h.1.trans (by decide)

end Leetcoder
